import Mathlib

/-!
Verification of the MOT core: the parameter-proposal layer
(`mot/parameter_functions/proposals.py`), the factory lookup
(`mot/factory.py`), and the load-balancing strategy layer (modelled from
the specification, as `mot/load_balance_strategies.py` is not part of the
sampled sources).

Python floats stored as plain data (`default_value`, `std`) are modelled
as rationals; the mathematics performed by the generated CL kernels is
modelled over the reals, with the `uint` counter arithmetic of the update
kernel done modulo 2^32 as unsigned 32-bit arithmetic does.
-/

/-- `ProposalParameter.__init__(default_value, adaptable)`:
container class for parameters of a proposal function. -/
structure ProposalParameter where
  default_value : ℚ
  adaptable : Bool
deriving DecidableEq

/-- `ProposalParameter.get_parameter_update_function`: returns the CL source
of the default parameter update rule (the Python method ignores `self`;
the returned string is the same triple-quoted literal for every instance). -/
def ProposalParameter.get_parameter_update_function (_ : ProposalParameter) : String :=
  "\n            #ifndef DMRIPROPOSAL_DEFAULT_PARAMETER_UPDATE\n            #define DMRIPROPOSAL_DEFAULT_PARAMETER_UPDATE\n\n            model_float dmriproposal_default_parameter_update(const model_float current_value,\n                                                              const uint acceptance_counter,\n                                                              const uint jump_counter)\x7b\n                return min(current_value *\n                                sqrt( (model_float)(acceptance_counter+1) /\n                                      ((jump_counter - acceptance_counter) + 1)\n                                ),\n                           1e10);\n            \x7d\n\n            #endif //DMRIPROPOSAL_DEFAULT_PARAMETER_UPDATE\n        "

/-- `ProposalParameter.get_parameter_update_function_name`. -/
def ProposalParameter.get_parameter_update_function_name (_ : ProposalParameter) : String :=
  "dmriproposal_default_parameter_update"

/-- `AbstractParameterProposal.is_symmetric`: the base-class property,
returning `True` for any proposal that does not override it. -/
def AbstractParameterProposal.is_symmetric : Bool := true

/-- `GaussianProposal`: holds `self._parameters`, the list built in
`__init__`. -/
structure GaussianProposal where
  _parameters : List ProposalParameter
deriving DecidableEq

/-- `GaussianProposal.__init__(std, adaptable)`:
sets `self._parameters = [ProposalParameter(std, adaptable)]`. -/
def GaussianProposal.init (std : ℚ) (adaptable : Bool) : GaussianProposal :=
  ⟨[⟨std, adaptable⟩]⟩

/-- `GaussianProposal()` with the Python argument defaults
`std=1.0, adaptable=True`. -/
def GaussianProposal.mkDefault : GaussianProposal := GaussianProposal.init 1 true

/-- `GaussianProposal.get_parameters`: returns `self._parameters`. -/
def GaussianProposal.get_parameters (g : GaussianProposal) : List ProposalParameter :=
  g._parameters

/-- `GaussianProposal.is_symmetric`: not overridden, inherited from
`AbstractParameterProposal`. -/
def GaussianProposal.is_symmetric (_ : GaussianProposal) : Bool :=
  AbstractParameterProposal.is_symmetric

/-- `GaussianProposal.get_proposal_function`: the CL source of the Gaussian
jump kernel (a fixed string, independent of `self`). -/
def GaussianProposal.get_proposal_function (_ : GaussianProposal) : String :=
  "\n            #ifndef DMRIPROP_GAUSSIANPROPOSAL_CL\n            #define DMRIPROP_GAUSSIANPROPOSAL_CL\n\n            model_float dmriproposal_gaussianProposal(const model_float current, ranluxcl_state_t* const ranluxclstate,\n                                                      const model_float std)\x7b\n                return current + std * ranluxcl_gaussian(ranluxclstate);\n            \x7d\n\n            #endif //DMRIPROP_GAUSSIANPROPOSAL_CL\n        "

/-- `GaussianProposal.get_proposal_function_name`. -/
def GaussianProposal.get_proposal_function_name (_ : GaussianProposal) : String :=
  "dmriproposal_gaussianProposal"

/-- `GaussianProposal.get_proposal_logpdf_function`: the CL source of the
Gaussian log-density kernel (a fixed string, independent of `self`). -/
def GaussianProposal.get_proposal_logpdf_function (_ : GaussianProposal) : String :=
  "\n            #ifndef DMRIPROP_GAUSSIANPROPOSALLOGPDF_CL\n            #define DMRIPROP_GAUSSIANPROPOSALLOGPDF_CL\n\n            model_float dmriproposal_gaussianProposalLogPDF(const model_float x, const model_float mu,\n                                                            const model_float std)\x7b\n                return log(M_2_SQRTPI / std) + (-0.5 * pown((x - mu) / std, 2));\n            \x7d\n\n            #endif //DMRIPROP_GAUSSIANPROPOSALLOGPDF_CL\n        "

/-- `GaussianProposal.get_proposal_logpdf_function_name`. -/
def GaussianProposal.get_proposal_logpdf_function_name (_ : GaussianProposal) : String :=
  "dmriproposal_gaussianProposalLogPDF"

/-- Does the character list `s` start with the character list `pat`? -/
def charsStartWith : List Char → List Char → Bool
  | _, [] => true
  | [], _ :: _ => false
  | c :: cs, p :: ps => (c == p) && charsStartWith cs ps

/-- Does the character list `s` contain `pat` as a contiguous run? -/
def charsContain : List Char → List Char → Bool
  | [], pat => pat.isEmpty
  | c :: cs, pat => charsStartWith (c :: cs) pat || charsContain cs pat

/-- Substring test used to state facts about the generated CL sources. -/
def strContains (s pat : String) : Bool :=
  charsContain s.toList pat.toList

/-- Include-guard symbol of the default parameter update source. -/
def parameterUpdateGuard : String := "DMRIPROPOSAL_DEFAULT_PARAMETER_UPDATE"

/-- Include-guard symbol of the Gaussian jump-kernel source. -/
def gaussianProposalGuard : String := "DMRIPROP_GAUSSIANPROPOSAL_CL"

/-- Include-guard symbol of the Gaussian log-density source. -/
def gaussianLogpdfGuard : String := "DMRIPROP_GAUSSIANPROPOSALLOGPDF_CL"

/-- An entry of a factory family list (`mot/factory.py`): the only
capability `_get_item` uses is the class method `get_pretty_name()`.
The concrete optimizer / filter / load-balancer classes live outside the
sampled sources, so entries are abstract name-bearing references. -/
structure FactoryItem where
  get_pretty_name : String
deriving DecidableEq

/-- The `ValueError` message raised by `_get_item`:
`'The item with the name {0} could not be found in the {1} factory.'`. -/
def lookupErrorMessage (name factoryType : String) : String :=
  "The item with the name " ++ name ++ " could not be found in the " ++
    factoryType ++ " factory."

/-- `_get_item(name, item_list, factory_type)`: linear scan in list order,
returning the first entry whose pretty name equals `name` (the class
reference itself, uninstantiated), else raising a `ValueError`. -/
def getItem (name : String) : List FactoryItem → String → Except String FactoryItem
  | [], factoryType => Except.error (lookupErrorMessage name factoryType)
  | item :: rest, factoryType =>
      if item.get_pretty_name = name then Except.ok item else getItem name rest factoryType

/-- `get_optimizer_by_name(name)`: scans the module's `optimizers` list
(classes imported from `mot.cl_routines.optimizing`, outside the sampled
sources, hence a parameter here) under the family label `'optimizers'`. -/
def get_optimizer_by_name (optimizers : List FactoryItem) (name : String) :
    Except String FactoryItem :=
  getItem name optimizers "optimizers"

/-- `get_filter_by_name(name)`: family label `'smoothers'`. -/
def get_filter_by_name (filters : List FactoryItem) (name : String) :
    Except String FactoryItem :=
  getItem name filters "smoothers"

/-- `get_load_balance_strategy_by_name(name)`: family label
`'load balancers'`. -/
def get_load_balance_strategy_by_name (strategies : List FactoryItem) (name : String) :
    Except String FactoryItem :=
  getItem name strategies "load balancers"

/-- Reduction of a value to the range of a CL `uint`. -/
def uint32 (x : ℕ) : ℕ := x % 2 ^ 32

/-- CL `uint` subtraction `x - y`: wraps modulo `2^32`. -/
def uintSub32 (x y : ℕ) : ℕ := (uint32 x + (2 ^ 32 - uint32 y)) % 2 ^ 32

/-- CL `uint` increment `x + 1`: wraps modulo `2^32`. -/
def uintSucc32 (x : ℕ) : ℕ := (x + 1) % 2 ^ 32

/-- Semantics of the generated CL kernel `dmriproposal_default_parameter_update`
from `ProposalParameter.get_parameter_update_function`:
`min(current_value * sqrt((model_float)(acceptance_counter+1) /
((jump_counter - acceptance_counter) + 1)), 1e10)`,
with `model_float` modelled as a real number and the two counters as CL
`uint`s (all counter arithmetic modulo `2^32`). -/
noncomputable def dmriproposal_default_parameter_update
    (current_value : ℝ) (acceptance_counter jump_counter : ℕ) : ℝ :=
  min (current_value *
        Real.sqrt ((uintSucc32 (uint32 acceptance_counter) : ℝ) /
          (uintSucc32 (uintSub32 jump_counter acceptance_counter) : ℝ)))
    (10 ^ 10)

/-- The CL constant `M_2_SQRTPI`, i.e. `2 / sqrt(pi)`. -/
noncomputable def M_2_SQRTPI : ℝ := 2 / Real.sqrt Real.pi

/-- Semantics of the generated CL kernel `dmriproposal_gaussianProposalLogPDF`
from `GaussianProposal.get_proposal_logpdf_function`:
`log(M_2_SQRTPI / std) + (-0.5 * pown((x - mu) / std, 2))`,
with `model_float` modelled as a real number (`pown(y, 2) = y^2`). -/
noncomputable def dmriproposal_gaussianProposalLogPDF (x mu std : ℝ) : ℝ :=
  Real.log (M_2_SQRTPI / std) + (-(1/2) * ((x - mu) / std) ^ 2)

/-- Modelled from the spec: device kind of a compute `Environment`
(spec section 3, "a device class (e.g., accelerator vs. general-purpose)");
`mot/load_balance_strategies.py` is not among the sampled sources. -/
inductive DeviceType where
  | accelerator
  | generalPurpose
deriving DecidableEq

/-- Modelled from the spec: a compute environment, with an identifier, a
device kind and an optional measured relative throughput (spec section 3;
`mot/load_balance_strategies.py` is not among the sampled sources). -/
structure Environment where
  envId : String
  deviceType : DeviceType
  throughput : Option ℚ
deriving DecidableEq

/-- Modelled from the spec: the EvenDistribution split of `n` items over
`k` environments — each receives `n / k`, and the remainder `n % k` goes
to the first `n % k` environments in list order (spec section 4.3). -/
def evenDistribution (n k : ℕ) : List ℕ :=
  List.replicate (n % k) (n / k + 1) ++ List.replicate (k - n % k) (n / k)

/-- Place the share list `shares` at the `true` positions of `mask`
(in order), giving every `false` position a count of 0. -/
def placeAt : List Bool → List ℕ → List ℕ
  | [], _ => []
  | true :: rest, s :: shares => s :: placeAt rest shares
  | true :: rest, [] => 0 :: placeAt rest []
  | false :: rest, shares => 0 :: placeAt rest shares

/-- Index of the first maximal element of a list of rationals
(used to give the rounding remainder to the fastest environment). -/
def argmaxIdx : List ℚ → ℕ
  | [] => 0
  | [_] => 0
  | x :: y :: rest =>
      let j := argmaxIdx (y :: rest)
      if x < (y :: rest).getD j 0 then j + 1 else 0

/-- Add `m` to the element of `l` at position `i`. -/
def addAt : List ℕ → ℕ → ℕ → List ℕ
  | [], _, _ => []
  | c :: rest, 0, m => (c + m) :: rest
  | c :: rest, i + 1, m => c :: addAt rest i m

/-- Modelled from the spec: the LoadBalanceStrategy variants of
spec section 4.3 (`mot/load_balance_strategies.py` is not among the
sampled sources). -/
inductive LoadBalanceStrategy where
  | evenDist
  | runtimeLoadBalancing
  | preferGPU
  | preferCPU
  | preferSpecificEnvironment (target : String)
deriving DecidableEq

/-- Does this environment carry a positive throughput estimate? -/
def hasPosThroughput (e : Environment) : Bool :=
  match e.throughput with
  | some t => decide (0 < t)
  | none => false

/-- Modelled from the spec: split all items over the environments of the
given device kind per the EvenDistribution rule, the others receiving 0;
fall back to an even split over every environment when no environment of
that kind exists (spec section 4.3, PreferGPU / PreferCPU). -/
def preferDeviceType (dt : DeviceType) (n : ℕ) (envs : List Environment) : List ℕ :=
  let mask := envs.map (fun e => decide (e.deviceType = dt))
  if mask.any id then placeAt mask (evenDistribution n (mask.count true))
  else evenDistribution n envs.length

/-- Modelled from the spec: RuntimeLoadBalancing splits proportionally to
the throughput estimates, rounding down, the rounding remainder going to
the fastest environment; it degrades to the EvenDistribution behaviour
when throughput estimates are not available (spec section 4.3). -/
def runtimePartition (n : ℕ) (envs : List Environment) : List ℕ :=
  if envs.all hasPosThroughput then
    let ts := envs.map (fun e => e.throughput.getD 0)
    let total := ts.sum
    let base := ts.map (fun t => ⌊(n : ℚ) * t / total⌋₊)
    addAt base (argmaxIdx ts) (n - base.sum)
  else evenDistribution n envs.length

/-- Modelled from the spec: assign all `n` items to the first environment
whose identifier is `target`, every other environment receiving 0; a
configuration error when no such environment exists (spec section 4.3,
PreferSpecificEnvironment). -/
def preferSpecific (target : String) (n : ℕ) : List Environment → Except String (List ℕ)
  | [] => Except.error ("the environment " ++ target ++ " is not present")
  | e :: rest =>
      if e.envId = target then Except.ok (n :: rest.map (fun _ => 0))
      else (preferSpecific target n rest).map (fun counts => 0 :: counts)

/-- Modelled from the spec: `partition(total_items, environments)` for each
LoadBalanceStrategy variant; a configuration error when `environments` is
empty (spec sections 4.3 and 7). The returned list is the item count of
each environment, in environment list order. -/
def LoadBalanceStrategy.partition (strategy : LoadBalanceStrategy) (n : ℕ)
    (envs : List Environment) : Except String (List ℕ) :=
  if envs.isEmpty then Except.error "no environments given" else
  match strategy with
  | .evenDist => Except.ok (evenDistribution n envs.length)
  | .runtimeLoadBalancing => Except.ok (runtimePartition n envs)
  | .preferGPU => Except.ok (preferDeviceType DeviceType.accelerator n envs)
  | .preferCPU => Except.ok (preferDeviceType DeviceType.generalPurpose n envs)
  | .preferSpecificEnvironment target => preferSpecific target n envs

lemma gaussianProposalLogPDF_eq (x mu std : ℝ) :
    dmriproposal_gaussianProposalLogPDF x mu std =
      Real.log (2 / (std * Real.sqrt Real.pi)) - (1/2) * ((x - mu) / std) ^ 2 := by
  unfold dmriproposal_gaussianProposalLogPDF M_2_SQRTPI
  rw [div_div, mul_comm (Real.sqrt Real.pi) std]
  ring

/-- Claim C3: the Gaussian proposal's log-density kernel computes, for every
`x`, `mu` and `std`, `log(2/(std*sqrt(pi))) - 0.5 * ((x - mu)/std)^2`;
consequently, with `std = 2` and evaluated at `x = mu`, it equals
`log(2/(2*sqrt(pi)))`. -/
theorem gaussianProposalLogPDF_formula :
    (∀ x mu std : ℝ, dmriproposal_gaussianProposalLogPDF x mu std =
        Real.log (2 / (std * Real.sqrt Real.pi)) - (1/2) * ((x - mu) / std) ^ 2)
    ∧ ∀ mu : ℝ, dmriproposal_gaussianProposalLogPDF mu mu 2 =
        Real.log (2 / (2 * Real.sqrt Real.pi)) := by
  refine ⟨gaussianProposalLogPDF_eq, fun mu => ?_⟩
  rw [gaussianProposalLogPDF_eq]
  norm_num

/-- Claim C6: `is_symmetric` is true by default for every parameter proposal
that does not override it (the base-class property returns `True`), and in
particular `GaussianProposal.is_symmetric` is true. -/
theorem is_symmetric_default_true :
    AbstractParameterProposal.is_symmetric = true ∧
    ∀ g : GaussianProposal, g.is_symmetric = true :=
  ⟨rfl, fun _ => rfl⟩

set_option maxRecDepth 40000 in
/-- Claim C7: every generated source fragment (the Gaussian jump kernel, the
Gaussian log-density kernel and the default parameter update function) is
wrapped in a matching `#ifndef`/`#define` include-guard pair (closed by an
`#endif`), and contains a function definition whose name is exactly the
string returned by its paired `*_function_name()` accessor. -/
theorem generated_source_guards_and_names :
    (∀ g : GaussianProposal,
      strContains g.get_proposal_function ("#ifndef " ++ gaussianProposalGuard) = true ∧
      strContains g.get_proposal_function ("#define " ++ gaussianProposalGuard) = true ∧
      strContains g.get_proposal_function "#endif" = true ∧
      strContains g.get_proposal_function
        ("model_float " ++ g.get_proposal_function_name ++ "(") = true)
    ∧ (∀ g : GaussianProposal,
      strContains g.get_proposal_logpdf_function ("#ifndef " ++ gaussianLogpdfGuard) = true ∧
      strContains g.get_proposal_logpdf_function ("#define " ++ gaussianLogpdfGuard) = true ∧
      strContains g.get_proposal_logpdf_function "#endif" = true ∧
      strContains g.get_proposal_logpdf_function
        ("model_float " ++ g.get_proposal_logpdf_function_name ++ "(") = true)
    ∧ ∀ p : ProposalParameter,
      strContains p.get_parameter_update_function ("#ifndef " ++ parameterUpdateGuard) = true ∧
      strContains p.get_parameter_update_function ("#define " ++ parameterUpdateGuard) = true ∧
      strContains p.get_parameter_update_function "#endif" = true ∧
      strContains p.get_parameter_update_function
        ("model_float " ++ p.get_parameter_update_function_name ++ "(") = true := by
  refine ⟨fun g => ?_, fun g => ?_, fun p => ?_⟩
  · simp only [GaussianProposal.get_proposal_function,
      GaussianProposal.get_proposal_function_name]
    exact ⟨by decide, by decide, by decide, by decide⟩
  · simp only [GaussianProposal.get_proposal_logpdf_function,
      GaussianProposal.get_proposal_logpdf_function_name]
    exact ⟨by decide, by decide, by decide, by decide⟩
  · simp only [ProposalParameter.get_parameter_update_function,
      ProposalParameter.get_parameter_update_function_name]
    exact ⟨by decide, by decide, by decide, by decide⟩

/-- Claim C8: for every `std` value `s` and boolean `a`,
`GaussianProposal(std=s, adaptable=a).get_parameters()` is a sequence of
exactly one `ProposalParameter` whose `default_value` is `s` and whose
`adaptable` flag is `a`; the Python defaults are `std=1.0, adaptable=True`,
and the sequence is the same across repeated calls on the same instance. -/
theorem gaussianProposal_get_parameters_spec :
    ∀ (s : ℚ) (a : Bool),
      (GaussianProposal.init s a).get_parameters = [ProposalParameter.mk s a]
      ∧ ((GaussianProposal.init s a).get_parameters).length = 1
      ∧ GaussianProposal.mkDefault = GaussianProposal.init 1 true
      ∧ (GaussianProposal.init s a).get_parameters
          = (GaussianProposal.init s a).get_parameters :=
  fun _ _ => ⟨rfl, rfl, rfl, rfl⟩

/-- Claim C9: `get_proposal_function()` is deterministic and effect-free:
two calls return byte-identical source (in this pure model the result is a
fixed string, the same for every instance and every call). -/
theorem get_proposal_function_deterministic :
    ∀ g g2 : GaussianProposal,
      g.get_proposal_function = g.get_proposal_function ∧
      g.get_proposal_function = g2.get_proposal_function :=
  fun _ _ => ⟨rfl, rfl⟩

/-- Claim C10: every two `ProposalParameter` instances, whatever their
`default_value` and `adaptable` arguments, share the identical update-rule
source string, and `get_parameter_update_function_name()` always returns
`'dmriproposal_default_parameter_update'`. -/
theorem parameter_update_function_shared :
    ∀ p q : ProposalParameter,
      p.get_parameter_update_function = q.get_parameter_update_function ∧
      p.get_parameter_update_function_name = q.get_parameter_update_function_name ∧
      p.get_parameter_update_function_name = "dmriproposal_default_parameter_update" :=
  fun _ _ => ⟨rfl, rfl, rfl⟩

lemma update_eval_zero (v : ℝ) :
    dmriproposal_default_parameter_update v 0 0 = min v (10 ^ 10) := by
  have h1 : uintSucc32 (uint32 0) = 1 := by decide
  have h2 : uintSucc32 (uintSub32 0 0) = 1 := by decide
  unfold dmriproposal_default_parameter_update
  rw [h1, h2]
  norm_num [Real.sqrt_one]

lemma update_eval_9_9 :
    dmriproposal_default_parameter_update 1 9 9 = Real.sqrt 10 := by
  have h1 : uintSucc32 (uint32 9) = 10 := by decide
  have h2 : uintSucc32 (uintSub32 9 9) = 1 := by decide
  unfold dmriproposal_default_parameter_update
  rw [h1, h2]
  have hle : Real.sqrt 10 ≤ 10 ^ 10 := by
    have h := Real.sqrt_le_sqrt (show (10:ℝ) ≤ ((10:ℝ) ^ 10) ^ 2 by norm_num)
    rwa [Real.sqrt_sq (by norm_num)] at h
  push_cast
  rw [div_one, one_mul]
  exact min_eq_left hle

lemma update_eval_9_0 :
    dmriproposal_default_parameter_update 1 9 0 = Real.sqrt (10 / 4294967288) := by
  have h1 : uintSucc32 (uint32 9) = 10 := by decide
  have h2 : uintSucc32 (uintSub32 0 9) = 4294967288 := by decide
  unfold dmriproposal_default_parameter_update
  rw [h1, h2]
  have hlt : Real.sqrt (10 / 4294967288) < 1 := by
    have h := Real.sqrt_lt_sqrt (show (0:ℝ) ≤ 10 / 4294967288 by norm_num)
      (show (10:ℝ) / 4294967288 < 1 by norm_num)
    rwa [Real.sqrt_one] at h
  have hle : Real.sqrt (10 / 4294967288) ≤ 10 ^ 10 :=
    le_of_lt (lt_of_lt_of_le hlt (by norm_num))
  push_cast
  rw [one_mul]
  exact min_eq_left hle

/-- Claim C1 (counterexample): the default update rule is not the formula
`min(v * sqrt((a+1)/(j-a+1)), 1e10)` for every pair of counters (at
`a = 2, j = 0` the CL `uint` subtraction wraps modulo `2^32`, while the
claimed real formula has a negative denominator), and `update(v, 0, 0)` is
not `v` for every `v` (at `v = 2e10` the result is clamped to `1e10`). -/
theorem default_update_claim_counterexample :
    dmriproposal_default_parameter_update (2 * 10 ^ 10) 0 0 ≠ 2 * 10 ^ 10
    ∧ dmriproposal_default_parameter_update 1 2 0
        ≠ min (1 * Real.sqrt (((2:ℝ) + 1) / ((0:ℝ) - 2 + 1))) (10 ^ 10) := by
  constructor
  · rw [update_eval_zero]
    rw [min_eq_right (show (10:ℝ) ^ 10 ≤ 2 * 10 ^ 10 by norm_num)]
    norm_num
  · have hr : Real.sqrt (((2:ℝ) + 1) / ((0:ℝ) - 2 + 1)) = 0 :=
      Real.sqrt_eq_zero'.mpr (by norm_num)
    rw [hr]
    have h0 : min ((1:ℝ) * 0) (10 ^ 10) = 0 := by norm_num
    rw [h0]
    have h1 : uintSucc32 (uint32 2) = 3 := by decide
    have h2 : uintSucc32 (uintSub32 0 2) = 4294967295 := by decide
    unfold dmriproposal_default_parameter_update
    rw [h1, h2]
    refine ne_of_gt (lt_min ?_ (by norm_num))
    have : (0:ℝ) < ((3:ℕ):ℝ) / ((4294967295:ℕ):ℝ) := by
      push_cast
      norm_num
    positivity

/-- Claim C1 (amended): for every real `v` and counters `a ≤ j` within the
`uint` range (`a + 1 < 2^32`, `j < 2^32`, `j - a + 1 < 2^32`), the default
update rule computes `min(v * sqrt((a+1)/(j-a+1)), 1e10)`; and
`update(v, 0, 0) = v` for every `v ≤ 1e10` (larger `v` are clamped to the
upper bound `1e10`). -/
theorem default_update_formula :
    (∀ (v : ℝ) (a j : ℕ), a ≤ j → j < 2 ^ 32 → a + 1 < 2 ^ 32 → j - a + 1 < 2 ^ 32 →
      dmriproposal_default_parameter_update v a j
        = min (v * Real.sqrt (((a : ℝ) + 1) / ((j : ℝ) - (a : ℝ) + 1))) (10 ^ 10))
    ∧ ∀ v : ℝ, v ≤ 10 ^ 10 → dmriproposal_default_parameter_update v 0 0 = v := by
  constructor
  · intro v a j h1 h2 h3 h4
    have e32 : (2:ℕ) ^ 32 = 4294967296 := by norm_num
    rw [e32] at h2 h3 h4
    have hnum : uintSucc32 (uint32 a) = a + 1 := by
      unfold uintSucc32 uint32
      rw [e32]
      omega
    have hden : uintSucc32 (uintSub32 j a) = j - a + 1 := by
      unfold uintSucc32 uintSub32 uint32
      rw [e32]
      omega
    unfold dmriproposal_default_parameter_update
    rw [hnum, hden]
    push_cast [h1]
    ring_nf
  · intro v hv
    rw [update_eval_zero]
    exact min_eq_left hv

/-- Claim C1 (witness): the amended formula at `v = 7, a = 3, j = 5`, and
the identity at `v = 5`. -/
theorem default_update_formula_witness :
    dmriproposal_default_parameter_update 7 3 5
      = min (7 * Real.sqrt ((3 + 1) / (5 - 3 + 1 : ℝ))) (10 ^ 10)
    ∧ dmriproposal_default_parameter_update 5 0 0 = 5 := by
  constructor
  · have h := default_update_formula.1 7 3 5 (by norm_num) (by norm_num)
      (by norm_num) (by norm_num)
    norm_num at h ⊢
    exact h
  · exact default_update_formula.2 5 (by norm_num)

/-- Claim C2 (counterexample): `update(1.0, 9, 9)` is not `1.0` (it is
`sqrt(10)`), and `update(1.0, 9, 0)` is not `≥ 1.0` (under the kernel's
unsigned subtraction it is `sqrt(10/4294967288) < 1`). -/
theorem update_boundary_claim_counterexample :
    dmriproposal_default_parameter_update 1 9 9 ≠ 1
    ∧ ¬ (1 ≤ dmriproposal_default_parameter_update 1 9 0) := by
  constructor
  · rw [update_eval_9_9]
    have h : (1:ℝ) < Real.sqrt 10 := by
      have h1 := Real.sqrt_lt_sqrt (show (0:ℝ) ≤ 1 by norm_num) (show (1:ℝ) < 10 by norm_num)
      rwa [Real.sqrt_one] at h1
    exact ne_of_gt h
  · rw [update_eval_9_0]
    rw [not_le]
    have h := Real.sqrt_lt_sqrt (show (0:ℝ) ≤ 10 / 4294967288 by norm_num)
      (show (10:ℝ) / 4294967288 < 1 by norm_num)
    rwa [Real.sqrt_one] at h

/-- Claim C2 (amended): `update(1.0, 9, 9) = sqrt(10)`;
`update(1.0, 9, 0) = sqrt(10/4294967288)` (unsigned subtraction), which is
at or below the upper bound `1e10`, positive, and strictly below `1.0`. -/
theorem update_boundary_values :
    dmriproposal_default_parameter_update 1 9 9 = Real.sqrt 10
    ∧ dmriproposal_default_parameter_update 1 9 0 = Real.sqrt (10 / 4294967288)
    ∧ dmriproposal_default_parameter_update 1 9 0 ≤ 10 ^ 10
    ∧ 0 < dmriproposal_default_parameter_update 1 9 0
    ∧ dmriproposal_default_parameter_update 1 9 0 < 1 := by
  have hlt : Real.sqrt (10 / 4294967288) < 1 := by
    have h := Real.sqrt_lt_sqrt (show (0:ℝ) ≤ 10 / 4294967288 by norm_num)
      (show (10:ℝ) / 4294967288 < 1 by norm_num)
    rwa [Real.sqrt_one] at h
  refine ⟨update_eval_9_9, update_eval_9_0, ?_, ?_, ?_⟩
  · rw [update_eval_9_0]
    exact le_of_lt (lt_of_lt_of_le hlt (by norm_num))
  · rw [update_eval_9_0]
    exact Real.sqrt_pos.mpr (by norm_num)
  · rw [update_eval_9_0]
    exact hlt

lemma getItem_skips_nonmatching (name factoryType : String)
    (pre : List FactoryItem) (rest : List FactoryItem)
    (hpre : ∀ p ∈ pre, p.get_pretty_name ≠ name) :
    getItem name (pre ++ rest) factoryType = getItem name rest factoryType := by
  induction pre with
  | nil => rfl
  | cons p ps ih =>
      have hp : p.get_pretty_name ≠ name := hpre p (by simp)
      simp only [List.cons_append, getItem, if_neg hp]
      exact ih (fun q hq => hpre q (by simp [hq]))

lemma getItem_none (name factoryType : String) (items : List FactoryItem)
    (h : ∀ p ∈ items, p.get_pretty_name ≠ name) :
    getItem name items factoryType = Except.error (lookupErrorMessage name factoryType) := by
  have := getItem_skips_nonmatching name factoryType items [] h
  rwa [List.append_nil] at this

/-- Claim C4: for every family and every name, the lookup scans the family
list in order and returns the first entry whose pretty name equals the
requested name (the reference itself, uninstantiated); when no entry
matches it fails with an error containing both the requested name and the
family label — in particular `get_optimizer_by_name("NonexistentAlgorithm")`
fails with an error naming `"NonexistentAlgorithm"` and `"optimizers"`. -/
theorem factory_lookup_spec :
    (∀ (name factoryType : String) (pre post : List FactoryItem) (item : FactoryItem),
      (∀ p ∈ pre, p.get_pretty_name ≠ name) → item.get_pretty_name = name →
      getItem name (pre ++ item :: post) factoryType = Except.ok item)
    ∧ (∀ (name factoryType : String) (items : List FactoryItem),
      (∀ p ∈ items, p.get_pretty_name ≠ name) →
      getItem name items factoryType = Except.error (lookupErrorMessage name factoryType))
    ∧ (∀ name factoryType : String,
      (∃ s t, lookupErrorMessage name factoryType = s ++ name ++ t)
      ∧ ∃ u v, lookupErrorMessage name factoryType = u ++ factoryType ++ v)
    ∧ ∀ optimizers : List FactoryItem,
      (∀ p ∈ optimizers, p.get_pretty_name ≠ "NonexistentAlgorithm") →
      get_optimizer_by_name optimizers "NonexistentAlgorithm"
        = Except.error (lookupErrorMessage "NonexistentAlgorithm" "optimizers") := by
  refine ⟨?_, getItem_none, ?_, ?_⟩
  · intro name factoryType pre post item hpre hitem
    rw [getItem_skips_nonmatching name factoryType pre (item :: post) hpre]
    simp only [getItem, if_pos hitem]
  · intro name factoryType
    constructor
    · exact ⟨"The item with the name ",
        " could not be found in the " ++ factoryType ++ " factory.", by
          simp only [lookupErrorMessage, String.append_assoc]⟩
    · exact ⟨"The item with the name " ++ name ++ " could not be found in the ",
        " factory.", by simp only [lookupErrorMessage, String.append_assoc]⟩
  · intro optimizers h
    exact getItem_none "NonexistentAlgorithm" "optimizers" optimizers h

/-- Claim C4 (witness): the lookup at concrete inputs — `"Powell"` found
behind a non-matching entry, and `"NonexistentAlgorithm"` absent from a
concrete optimizer list. -/
theorem factory_lookup_spec_witness :
    getItem "Powell" [⟨"Levenberg-Marquardt"⟩, ⟨"Powell"⟩] "optimizers"
      = Except.ok ⟨"Powell"⟩
    ∧ get_optimizer_by_name [⟨"Levenberg-Marquardt"⟩, ⟨"Powell"⟩] "NonexistentAlgorithm"
      = Except.error (lookupErrorMessage "NonexistentAlgorithm" "optimizers") :=
  ⟨factory_lookup_spec.1 "Powell" "optimizers" [⟨"Levenberg-Marquardt"⟩] [] ⟨"Powell"⟩
      (by decide) (by decide),
   factory_lookup_spec.2.2.2 [⟨"Levenberg-Marquardt"⟩, ⟨"Powell"⟩] (by decide)⟩

lemma evenDistribution_length (n k : ℕ) (hk : k ≠ 0) :
    (evenDistribution n k).length = k := by
  have hr : n % k < k := Nat.mod_lt _ (Nat.pos_of_ne_zero hk)
  simp only [evenDistribution, List.length_append, List.length_replicate]
  omega

lemma even_sum_aux (q r u : ℕ) : r * (q + 1) + u * q = (u + r) * q + r := by ring

lemma evenDistribution_sum (n k : ℕ) (hk : k ≠ 0) :
    (evenDistribution n k).sum = n := by
  have hr : n % k < k := Nat.mod_lt _ (Nat.pos_of_ne_zero hk)
  simp only [evenDistribution, List.sum_append, List.sum_replicate, smul_eq_mul]
  obtain ⟨u, hu1, hu2⟩ : ∃ u, k - n % k = u ∧ k = u + n % k :=
    ⟨k - n % k, rfl, by omega⟩
  rw [hu1, even_sum_aux (n / k) (n % k) u, ← hu2]
  exact Nat.div_add_mod n k

lemma placeAt_length (mask : List Bool) (shares : List ℕ) :
    (placeAt mask shares).length = mask.length := by
  induction mask generalizing shares with
  | nil => rfl
  | cons b rest ih =>
      cases b with
      | true =>
          cases shares with
          | nil => simp [placeAt, ih]
          | cons s shares => simp [placeAt, ih]
      | false => simp [placeAt, ih]

lemma placeAt_sum (mask : List Bool) (shares : List ℕ)
    (h : mask.count true = shares.length) :
    (placeAt mask shares).sum = shares.sum := by
  induction mask generalizing shares with
  | nil =>
      have : shares = [] := by
        rw [← List.length_eq_zero]
        simpa [List.count_nil] using h.symm
      simp [placeAt, this]
  | cons b rest ih =>
      cases b with
      | true =>
          cases shares with
          | nil => simp [List.count_cons] at h
          | cons s shares =>
              have h2 : rest.count true = shares.length := by
                simpa [List.count_cons] using h
              simp [placeAt, ih shares h2]
      | false =>
          have h2 : rest.count true = shares.length := by
            simpa [List.count_cons] using h
          simp [placeAt, ih shares h2]

lemma any_id_count_pos (mask : List Bool) (h : mask.any id = true) :
    mask.count true ≠ 0 := by
  induction mask with
  | nil => simp at h
  | cons b rest ih =>
      cases b with
      | true => simp [List.count_cons]
      | false =>
          have : rest.any id = true := by simpa using h
          simpa [List.count_cons] using ih this

lemma argmaxIdx_lt : ∀ (l : List ℚ), l ≠ [] → argmaxIdx l < l.length
  | [_], _ => by simp [argmaxIdx]
  | x :: y :: rest, _ => by
      have ih := argmaxIdx_lt (y :: rest) (by simp)
      simp only [argmaxIdx]
      split
      · simpa using Nat.succ_lt_succ ih
      · simp

lemma addAt_length : ∀ (l : List ℕ) (i m : ℕ), (addAt l i m).length = l.length
  | [], _, _ => rfl
  | _ :: _, 0, _ => by simp [addAt]
  | c :: rest, i + 1, m => by simp [addAt, addAt_length rest i m]

lemma addAt_sum : ∀ (l : List ℕ) (i m : ℕ), i < l.length → (addAt l i m).sum = l.sum + m
  | [], _, _, h => absurd h (by simp)
  | c :: rest, 0, m, _ => by
      simp [addAt, List.sum_cons]
      omega
  | c :: rest, i + 1, m, h => by
      have := addAt_sum rest i m (by simpa using h)
      simp [addAt, List.sum_cons, this]
      omega

lemma preferDeviceType_props (dt : DeviceType) (n : ℕ) (envs : List Environment)
    (h : envs ≠ []) :
    (preferDeviceType dt n envs).length = envs.length
    ∧ (preferDeviceType dt n envs).sum = n := by
  have hlen0 : envs.length ≠ 0 := by simpa [List.length_eq_zero] using h
  unfold preferDeviceType
  by_cases hany : (envs.map (fun e => decide (e.deviceType = dt))).any id = true
  · have hk : (envs.map (fun e => decide (e.deviceType = dt))).count true ≠ 0 :=
      any_id_count_pos _ hany
    simp only [hany, if_true]
    constructor
    · rw [placeAt_length, List.length_map]
    · rw [placeAt_sum _ _ (by rw [evenDistribution_length _ _ hk]),
        evenDistribution_sum _ _ hk]
  · simp only [hany, if_false]
    exact ⟨evenDistribution_length n envs.length hlen0,
      evenDistribution_sum n envs.length hlen0⟩

lemma runtimePartition_props (n : ℕ) (envs : List Environment) (h : envs ≠ []) :
    (runtimePartition n envs).length = envs.length
    ∧ (runtimePartition n envs).sum = n := by
  have hlen0 : envs.length ≠ 0 := by simpa [List.length_eq_zero] using h
  unfold runtimePartition
  by_cases hall : envs.all hasPosThroughput = true
  · simp only [hall, if_true]
    have hts : ∀ t ∈ envs.map (fun e => e.throughput.getD 0), 0 < t := by
      intro t ht
      obtain ⟨e, he, rfl⟩ := List.mem_map.mp ht
      have hp := List.all_eq_true.mp hall e he
      unfold hasPosThroughput at hp
      cases hthr : e.throughput with
      | none => rw [hthr] at hp; simp at hp
      | some t0 =>
          rw [hthr] at hp
          simp only [Option.getD_some, hthr]
          exact of_decide_eq_true hp
    have hne : envs.map (fun e => e.throughput.getD 0) ≠ [] := by
      simpa [List.map_eq_nil_iff] using h
    have htot : 0 < (envs.map (fun e => e.throughput.getD 0)).sum :=
      List.sum_pos _ hts hne
    have hbase : ((envs.map (fun e => e.throughput.getD 0)).map
        (fun t => ⌊(n : ℚ) * t / (envs.map (fun e => e.throughput.getD 0)).sum⌋₊)).sum ≤ n := by
      have h1 : (((envs.map (fun e => e.throughput.getD 0)).map
          (fun t => ⌊(n : ℚ) * t / (envs.map (fun e => e.throughput.getD 0)).sum⌋₊)).sum : ℚ)
          ≤ ((envs.map (fun e => e.throughput.getD 0)).map
            (fun t => (n : ℚ) * t / (envs.map (fun e => e.throughput.getD 0)).sum)).sum := by
        rw [Nat.cast_list_sum, List.map_map]
        refine List.sum_le_sum ?_
        intro t ht
        exact Nat.floor_le (div_nonneg
          (mul_nonneg (Nat.cast_nonneg n) (le_of_lt (hts t ht))) (le_of_lt htot))
      have h2 : ((envs.map (fun e => e.throughput.getD 0)).map
          (fun t => (n : ℚ) * t / (envs.map (fun e => e.throughput.getD 0)).sum)).sum
          = (n : ℚ) := by
        have h3 : (fun t => (n : ℚ) * t / (envs.map (fun e => e.throughput.getD 0)).sum)
            = fun t => t * ((n : ℚ) / (envs.map (fun e => e.throughput.getD 0)).sum) := by
          funext t
          ring
        rw [h3, List.sum_map_mul_right, List.map_id', mul_comm,
          div_mul_eq_mul_div, mul_div_assoc,
          div_self (ne_of_gt htot), mul_one]
      rw [h2] at h1
      exact_mod_cast h1
    have hidx : argmaxIdx (envs.map (fun e => e.throughput.getD 0))
        < ((envs.map (fun e => e.throughput.getD 0)).map
          (fun t => ⌊(n : ℚ) * t / (envs.map (fun e => e.throughput.getD 0)).sum⌋₊)).length := by
      rw [List.length_map]
      exact argmaxIdx_lt _ hne
    constructor
    · rw [addAt_length, List.length_map, List.length_map]
    · rw [addAt_sum _ _ _ hidx]
      omega
  · simp only [hall, if_false]
    exact ⟨evenDistribution_length n envs.length hlen0,
      evenDistribution_sum n envs.length hlen0⟩

lemma preferSpecific_ok : ∀ (target : String) (n : ℕ) (envs : List Environment)
    (counts : List ℕ), preferSpecific target n envs = Except.ok counts →
    counts.length = envs.length ∧ counts.sum = n
  | target, n, [], counts, h => by simp [preferSpecific] at h
  | target, n, e :: rest, counts, h => by
      by_cases he : e.envId = target
      · rw [preferSpecific, if_pos he] at h
        have hc : counts = n :: rest.map (fun _ => 0) := by
          injection h with h2
          exact h2.symm
        subst hc
        constructor
        · simp
        · simp [List.sum_cons]
      · rw [preferSpecific, if_neg he] at h
        cases hrec : preferSpecific target n rest with
        | error msg => rw [hrec] at h; simp [Except.map] at h
        | ok counts2 =>
            rw [hrec] at h
            simp only [Except.map] at h
            have hc : counts = 0 :: counts2 := by
              injection h with h2
              exact h2.symm
            subst hc
            have ih := preferSpecific_ok target n rest counts2 hrec
            constructor
            · simp [ih.1]
            · simp [List.sum_cons, ih.2]

/-- Claim C5: for every `total_items` and every environment list, whenever a
LoadBalanceStrategy variant's `partition` succeeds it returns one count per
environment, all counts non-negative (they live in `ℕ`), summing exactly to
`total_items`; when `total_items = 0` every environment receives 0. -/
theorem load_balance_partition_invariant :
    ∀ (strategy : LoadBalanceStrategy) (n : ℕ) (envs : List Environment)
      (counts : List ℕ), strategy.partition n envs = Except.ok counts →
      counts.length = envs.length ∧ counts.sum = n
        ∧ (n = 0 → ∀ c ∈ counts, c = 0) := by
  intro strategy n envs counts h
  unfold LoadBalanceStrategy.partition at h
  by_cases he : envs.isEmpty
  · rw [if_pos he] at h
    simp at h
  · rw [if_neg he] at h
    have hne : envs ≠ [] := by
      intro hcon
      exact he (by simp [hcon])
    have hlen0 : envs.length ≠ 0 := by simpa [List.length_eq_zero] using hne
    have main : counts.length = envs.length ∧ counts.sum = n := by
      cases strategy with
      | evenDist =>
          have hc : counts = evenDistribution n envs.length := by
            injection h with h2
            exact h2.symm
          subst hc
          exact ⟨evenDistribution_length n envs.length hlen0,
            evenDistribution_sum n envs.length hlen0⟩
      | runtimeLoadBalancing =>
          have hc : counts = runtimePartition n envs := by
            injection h with h2
            exact h2.symm
          subst hc
          exact runtimePartition_props n envs hne
      | preferGPU =>
          have hc : counts = preferDeviceType DeviceType.accelerator n envs := by
            injection h with h2
            exact h2.symm
          subst hc
          exact preferDeviceType_props DeviceType.accelerator n envs hne
      | preferCPU =>
          have hc : counts = preferDeviceType DeviceType.generalPurpose n envs := by
            injection h with h2
            exact h2.symm
          subst hc
          exact preferDeviceType_props DeviceType.generalPurpose n envs hne
      | preferSpecificEnvironment target =>
          exact preferSpecific_ok target n envs counts h
    refine ⟨main.1, main.2, fun h0 c hc => ?_⟩
    have hz : counts.sum = 0 := by rw [main.2, h0]
    exact List.sum_eq_zero_iff.mp hz c hc

/-- Claim C5 (witness): the EvenDistribution variant at
`total_items = 10` over three environments, giving counts `[4, 3, 3]`. -/
theorem load_balance_partition_invariant_witness :
    ([4, 3, 3] : List ℕ).length
        = ([⟨"A", DeviceType.generalPurpose, none⟩,
            ⟨"B", DeviceType.accelerator, none⟩,
            ⟨"C", DeviceType.generalPurpose, none⟩] : List Environment).length
      ∧ ([4, 3, 3] : List ℕ).sum = 10
      ∧ ((10 : ℕ) = 0 → ∀ c ∈ ([4, 3, 3] : List ℕ), c = 0) :=
  load_balance_partition_invariant LoadBalanceStrategy.evenDist 10
    [⟨"A", DeviceType.generalPurpose, none⟩,
     ⟨"B", DeviceType.accelerator, none⟩,
     ⟨"C", DeviceType.generalPurpose, none⟩] [4, 3, 3] (by rfl)
